import Mathlib

/-!
Shallow embedding of the `mcp-server-api-manager` core: configuration
registry (`save_api`, `get_api`, `delete_api`, `list_apis`), request
executor (`make_request`), bounded request-history ledger, and the
`search` / `fetch` tools, translated from `src/src/server.ts` and the
unnamed source file that adds the search/fetch tools.

JavaScript specifics kept by the model:
- string truthiness (`""` is falsy): `truthy`;
- objects as string-keyed records in insertion order with later
  assignments overwriting: association lists with `recSet` / `recGet`;
- host-runtime services (clock `Date`, WHATWG `new URL` parsing,
  `JSON.parse`, the outcome of the outbound `fetch`) are inputs of the
  model: `Env` and `FetchOutcome`.
-/

namespace ApiManager

/-- JS truthiness for an optional string: `undefined` and `""` are falsy. -/
def truthy : Option String → Bool
  | some s => !s.data.isEmpty
  | none => false

/-- JS `haystack.includes(needle)` (substring test; empty needle matches). -/
def strIncludes (haystack needle : String) : Bool :=
  haystack.data.tails.any fun t => needle.data.isPrefixOf t

/-- Source `s.toLowerCase()`, character-wise (the inputs of interest are ASCII). -/
def strToLower (s : String) : String :=
  String.mk (s.data.map Char.toLower)

/-- Source `s.startsWith(pre)`. -/
def strStartsWith (s pre : String) : Bool :=
  pre.data.isPrefixOf s.data

/-- The `credentials` object of an `ApiConfig.auth` (all fields optional). -/
structure Credentials where
  token : Option String := none
  apiKey : Option String := none
  username : Option String := none
  password : Option String := none
  headerName : Option String := none
deriving Repr, DecidableEq

/-- The four auth variants of `auth.type` (`'bearer' | 'api-key' | 'basic' | 'none'`). -/
inductive AuthType where
  | bearer
  | apiKey
  | basic
  | none
deriving Repr, DecidableEq

/-- The `auth` object: a type tag plus an optional credentials object. -/
structure Auth where
  type : AuthType
  credentials : Option Credentials := Option.none
deriving Repr, DecidableEq

/-- Header maps / JS records, in insertion order. -/
abbrev HeaderMap : Type := List (String × String)

/-- The `ApiConfig` interface from the source. -/
structure ApiConfig where
  name : String
  baseUrl : String
  description : Option String := Option.none
  auth : Option Auth := Option.none
  headers : Option HeaderMap := Option.none
  timeout : Option Nat := Option.none
  createdAt : String
  lastUsed : Option String := Option.none
deriving Repr, DecidableEq

/-- The `RequestHistory` interface from the source. -/
structure RequestHistory where
  timestamp : String
  apiName : String
  method : String
  endpoint : String
  status : Nat
  responseTime : Nat
  success : Bool
deriving Repr, DecidableEq

/-- The `apiConfigs` map, as an insertion-ordered association list
(JS `Map` preserves insertion order). -/
abbrev Store : Type := List (String × ApiConfig)

/-- Source `apiConfigs.has(name)`. -/
def mapHas (s : Store) (name : String) : Bool :=
  s.any fun p => p.1 == name

/-- Source `apiConfigs.get(name)` (also `getApiConfig`). -/
def mapGet (s : Store) (name : String) : Option ApiConfig :=
  (s.find? fun p => p.1 == name).map Prod.snd

/-- Overwrite the configuration stored under `name` (in-place object
mutation of a map entry, or `Map.set` on an existing key). -/
def mapPut (s : Store) (name : String) (cfg : ApiConfig) : Store :=
  s.map fun p => if p.1 == name then (p.1, cfg) else p

/-- JS record assignment `m[k] = v`: overwrite in place if the key
exists, else append. -/
def recSet (m : HeaderMap) (k v : String) : HeaderMap :=
  if m.any (fun p => p.1 == k) then
    m.map fun p => if p.1 == k then (k, v) else p
  else
    m ++ [(k, v)]

/-- JS record read `m[k]`. -/
def recGet (m : HeaderMap) (k : String) : Option String :=
  (m.find? fun p => p.1 == k).map Prod.snd

/-- Object spread `{...m, ...entries}`: assign every entry in order. -/
def recSetAll (m : HeaderMap) (entries : HeaderMap) : HeaderMap :=
  entries.foldl (fun acc kv => recSet acc kv.1 kv.2) m

/-- Standard base64 alphabet, as used by `Buffer.toString('base64')`. -/
def base64Chars : List Char :=
  "ABCDEFGHIJKLMNOPQRSTUVWXYZabcdefghijklmnopqrstuvwxyz0123456789+/".data

/-- Character of the base64 alphabet at index `n` (`n < 64`). -/
def b64Char (n : Nat) : Char := base64Chars.getD n 'A'

/-- Base64-encode a byte sequence (values < 256), with `=` padding. -/
def b64Encode : List Nat → List Char
  | [] => []
  | [a] => [b64Char (a / 4), b64Char (a % 4 * 16), '=', '=']
  | [a, b] => [b64Char (a / 4), b64Char (a % 4 * 16 + b / 16), b64Char (b % 16 * 4), '=']
  | a :: b :: c :: rest =>
      b64Char (a / 4) :: b64Char (a % 4 * 16 + b / 16) ::
      b64Char (b % 16 * 4 + c / 64) :: b64Char (c % 64) :: b64Encode rest

/-- Source `Buffer.from(s).toString('base64')`: base64 of the UTF-8 bytes. -/
def base64 (s : String) : String :=
  String.mk (b64Encode (s.toUTF8.toList.map UInt8.toNat))

/-- The redaction marker used by `sanitizeConfig`. -/
def REDACTED : String := "[REDACTED]"

/-- The credentials object `sanitizeConfig` builds: `username` and
`headerName` copied through, each secret replaced by `'[REDACTED]'`
when truthy and deleted (absent) otherwise. -/
def redactCredentials (c : Credentials) : Credentials where
  username := c.username
  headerName := c.headerName
  token := if truthy c.token then some REDACTED else Option.none
  apiKey := if truthy c.apiKey then some REDACTED else Option.none
  password := if truthy c.password then some REDACTED else Option.none

/-- Source `sanitizeConfig(config)`.

The source starts from the shallow copy `{ ...config }`, so its `auth`
field is the *same object* as `config.auth`; the assignment
`sanitized.auth.credentials = …` therefore overwrites the credentials
of the stored configuration as well.  Wherever the source calls
`sanitizeConfig(config)` on a stored configuration, the store afterwards
holds exactly this value, and the model threads that mutation
explicitly. -/
def sanitizeConfig (cfg : ApiConfig) : ApiConfig :=
  match cfg.auth with
  | some a =>
    match a.credentials with
    | some c => { cfg with auth := some { a with credentials := some (redactCredentials c) } }
    | Option.none => cfg
  | Option.none => cfg

/-- Host-runtime services used by the tools. `urlParses u` models
whether `new URL(u)` succeeds (WHATWG parsing is the Node runtime's);
`now` is `new Date().toISOString()`. -/
structure Env where
  now : String
  urlParses : String → Bool

/-- Source `validateUrl`. -/
def validateUrl (env : Env) (url : String) : Bool :=
  env.urlParses url && (strStartsWith url "http://" || strStartsWith url "https://")

/-- Source `baseUrl.replace(/\/$/, '')` on the character list: the regex is
anchored and unflagged, so it removes at most one trailing `'/'`. -/
def dropTrailingSlash (l : List Char) : List Char :=
  if l.getLast? = some '/' then l.dropLast else l

/-- Source `baseUrl.replace(/\/$/, '')`. -/
def stripTrailingSlash (s : String) : String :=
  String.mk (dropTrailingSlash s.data)

/-- Errors of the `save_api` validation chain. -/
inductive SaveError where
  | alreadyExists
  | invalidUrl
  | incompleteAuth
deriving Repr, DecidableEq

/-- Arguments of the `save_api` tool (zod schema). -/
structure SaveArgs where
  name : String
  baseUrl : String
  description : Option String := Option.none
  auth : Option Auth := Option.none
  headers : Option HeaderMap := Option.none
  timeout : Option Nat := Option.none
deriving Repr, DecidableEq

/-- The `save_api` auth validation switch.  It runs only under
`if (auth && auth.type !== 'none' && auth.credentials)`: an auth object
without a `credentials` object is not validated at all. -/
def saveAuthValid : Option Auth → Bool
  | Option.none => true
  | some a =>
    if a.type = AuthType.none then true
    else
      match a.credentials with
      | Option.none => true
      | some c =>
        match a.type with
        | AuthType.bearer => truthy c.token
        | AuthType.apiKey => truthy c.apiKey && truthy c.headerName
        | AuthType.basic => truthy c.username && truthy c.password
        | AuthType.none => true

/-- The `save_api` tool.  On success returns the new store and the
rendered (sanitized) configuration.  Because `sanitizeConfig` shares
the `auth` object with the configuration just placed in the map, the
stored entry ends up equal to the rendered one (see `sanitizeConfig`). -/
def saveApi (env : Env) (store : Store) (args : SaveArgs) :
    Except SaveError (Store × ApiConfig) :=
  if mapHas store args.name then .error .alreadyExists
  else if !(validateUrl env args.baseUrl) then .error .invalidUrl
  else if !(saveAuthValid args.auth) then .error .incompleteAuth
  else
    let config : ApiConfig := {
      name := args.name
      baseUrl := stripTrailingSlash args.baseUrl
      createdAt := env.now
      timeout := some (args.timeout.getD 30000)
      description := if truthy args.description then args.description else Option.none
      auth := args.auth
      headers := args.headers
    }
    let rendered := sanitizeConfig config
    .ok (store ++ [(args.name, rendered)], rendered)

/-- The `get_api` tool: renders the stored configuration through
`sanitizeConfig`, which also overwrites the stored entry. -/
def getApi (store : Store) (name : String) : Except String (Store × ApiConfig) :=
  match mapGet store name with
  | Option.none => .error ("API \"" ++ name ++ "\" not found")
  | some cfg =>
    let rendered := sanitizeConfig cfg
    .ok (mapPut store name rendered, rendered)

/-- The `delete_api` tool (`apiConfigs.delete(name)`). -/
def deleteApi (store : Store) (name : String) : Except String Store :=
  match mapGet store name with
  | Option.none => .error ("API \"" ++ name ++ "\" not found")
  | some _ => .ok (store.filter fun p => !(p.1 == name))

/-- Source `addRequestToHistory`: push, then `shift()` when over 100. -/
def addRequestToHistory (history : List RequestHistory) (request : RequestHistory) :
    List RequestHistory :=
  let h := history ++ [request]
  if h.length > 100 then h.tail else h

/-- Source `buildHeaders(config, customHeaders)`: spread base, default and
per-call headers, then inject the auth header(s). -/
def buildHeaders (config : ApiConfig) (customHeaders : Option HeaderMap) : HeaderMap :=
  let headers :=
    recSetAll (recSetAll [("Content-Type", "application/json")]
      (config.headers.getD [])) (customHeaders.getD [])
  match config.auth with
  | Option.none => headers
  | some a =>
    if a.type = AuthType.none then headers
    else
      match a.credentials with
      | Option.none => headers
      | some c =>
        match a.type with
        | AuthType.bearer =>
          if truthy c.token then
            recSet headers "Authorization" ("Bearer " ++ c.token.getD "")
          else headers
        | AuthType.apiKey =>
          if truthy c.apiKey && truthy c.headerName then
            recSet headers (c.headerName.getD "") (c.apiKey.getD "")
          else headers
        | AuthType.basic =>
          if truthy c.username && truthy c.password then
            recSet headers "Authorization"
              ("Basic " ++ base64 (c.username.getD "" ++ ":" ++ c.password.getD ""))
          else headers
        | AuthType.none => headers

/-- A parsed response body: `json` when `JSON.parse` / `response.json()`
produced a value (abstracted by its source text), `text` otherwise. -/
inductive BodyValue where
  | json (value : String)
  | text (raw : String)
deriving Repr, DecidableEq

/-- Source `parseResponse(response)`.  `jsonParse` is the host runtime's
`JSON.parse` outcome on the response text (`none` = it throws); the
same value models `response.json()`, which parses the same text. -/
def parseResponse (contentType rawBody : String) (jsonParse : Option String) :
    Except String BodyValue :=
  if strIncludes contentType "application/json" then
    match jsonParse with
    | some v => .ok (.json v)
    | Option.none => .error "Unexpected token in JSON"
  else if strIncludes contentType "text/" then .ok (.text rawBody)
  else
    match jsonParse with
    | some v => .ok (.json v)
    | Option.none => .ok (.text rawBody)

/-- Outcome of the outbound `fetch` call (with its deadline timer), an
input of the model: the deadline fired (`timeout`), the transport
failed (`transportError`), or an HTTP response completed. -/
inductive FetchOutcome where
  | timeout (elapsedMs : Nat)
  | transportError (message : String) (elapsedMs : Nat)
  | completed (status : Nat) (statusText : String) (contentType : String)
      (rawBody : String) (jsonParse : Option String)
      (elapsedMs : Nat) (completedAt : String)
deriving Repr, DecidableEq

/-- Result of the `make_request` tool. -/
inductive RequestResult where
  | apiNotFound (apiName : String)
  | timedOut (elapsedMs : Nat)
  | failed (message : String)
  | completed (status : Nat) (statusText : String) (body : BodyValue) (responseTime : Nat)
deriving Repr, DecidableEq

/-- The exact result texts of `make_request`'s non-2xx-agnostic paths.
The timeout text interpolates the elapsed milliseconds; the transport
failure text interpolates only `error.message` (the computed
`responseTime` is not used on that path).  The JSON rendering of a
completed response is presentation and is left unmodelled (`none`). -/
def renderRequestResult : RequestResult → Option String
  | .apiNotFound n =>
    some ("❌ Request failed: API \"" ++ n ++ "\" not found. Use save_api first.")
  | .timedOut e => some ("⏱️ Request timeout after " ++ toString e ++ "ms")
  | .failed m => some ("❌ Request failed: " ++ m)
  | .completed _ _ _ _ => Option.none

/-- The `make_request` tool: resolve the configuration, dispatch the
call (outcome supplied by `FetchOutcome`), and on a completed,
successfully parsed response update `lastUsed` and append one history
record with `success = response.ok` (status in `[200, 299]`).  The
timeout (`AbortError`) and transport-failure catch paths, and a
`parseResponse` throw, leave the store and the history untouched. -/
def makeRequest (store : Store) (history : List RequestHistory)
    (apiName endpoint method : String) (outcome : FetchOutcome) :
    Store × List RequestHistory × RequestResult :=
  match mapGet store apiName with
  | Option.none => (store, history, .apiNotFound apiName)
  | some config =>
    match outcome with
    | .timeout e => (store, history, .timedOut e)
    | .transportError msg _ => (store, history, .failed msg)
    | .completed st stT ct raw jp e completedAt =>
      match parseResponse ct raw jp with
      | .error msg => (store, history, .failed msg)
      | .ok body =>
        let config' := { config with lastUsed := some completedAt }
        let record : RequestHistory := {
          timestamp := completedAt
          apiName := apiName
          method := method
          endpoint := endpoint
          status := st
          responseTime := e
          success := 200 ≤ st && st ≤ 299
        }
        (mapPut store apiName config', addRequestToHistory history record,
         .completed st stT body e)

/-- One entry of the `search` result list. -/
structure SearchResult where
  id : String
  title : String
  url : String
deriving Repr, DecidableEq

/-- The string value of `auth.type`. -/
def authTypeStr : AuthType → String
  | AuthType.bearer => "bearer"
  | AuthType.apiKey => "api-key"
  | AuthType.basic => "basic"
  | AuthType.none => "none"

/-- Source `endpoint.replace(/[^a-zA-Z0-9]/g, '_')`. -/
def sanitizeEndpoint (endpoint : String) : String :=
  String.mk (endpoint.data.map fun c => if c.isAlphanum then c else '_')

/-- Relevance score and match reasons the `search` loop accumulates for
one stored configuration (name 10, description 8, baseUrl 6, auth type
4, and 2 once if any history entry of that API matches). -/
def apiMatch (history : List RequestHistory) (ql name : String) (config : ApiConfig) :
    Nat × List String :=
  let nameM := strIncludes (strToLower name) ql
  let descM := match config.description with
    | some d => strIncludes (strToLower d) ql
    | Option.none => false
  let urlM := strIncludes (strToLower config.baseUrl) ql
  let authM := match config.auth with
    | some a => strIncludes (strToLower (authTypeStr a.type)) ql
    | Option.none => false
  let epM := (history.filter fun r => r.apiName == name).any fun r =>
    strIncludes (strToLower r.endpoint) ql || strIncludes (strToLower r.method) ql
  ((if nameM then 10 else 0) + (if descM then 8 else 0) + (if urlM then 6 else 0) +
     (if authM then 4 else 0) + (if epM then 2 else 0),
   (if nameM then ["name"] else []) ++ (if descM then ["description"] else []) ++
     (if urlM then ["baseUrl"] else []) ++ (if authM then ["auth"] else []) ++
     (if epM then ["endpoints"] else []))

/-- Title of an `api-` search result:
`` `${name} API - ${config.description || 'API Configuration'} (${matchReasons.join(', ')})` ``. -/
def apiResultTitle (name : String) (config : ApiConfig) (reasons : List String) : String :=
  name ++ " API - " ++
    (match config.description with
     | some d => if d.isEmpty then "API Configuration" else d
     | Option.none => "API Configuration") ++
    " (" ++ String.intercalate ", " reasons ++ ")"

/-- The configuration loop of `search`: one `api-` result per stored
configuration with positive score, in map insertion order. -/
def searchApiResults (store : Store) (history : List RequestHistory) (ql : String) :
    List SearchResult :=
  store.filterMap fun p =>
    let m := apiMatch history ql p.1 p.2
    if m.1 > 0 then
      some { id := "api-" ++ p.1
             title := apiResultTitle p.1 p.2 m.2
             url := p.2.baseUrl ++ "/info" }
    else Option.none

/-- The history loop of `search`: one `endpoint-` result per distinct
`` `${apiName}-${endpoint}` `` key whose endpoint or method matches,
in history order (`uniqueEndpoints` is the seen-set). -/
def searchEndpointResults (store : Store) (history : List RequestHistory) (ql : String) :
    List SearchResult :=
  (history.foldl
    (fun acc r =>
      if strIncludes (strToLower r.endpoint) ql || strIncludes (strToLower r.method) ql then
        let key := r.apiName ++ "-" ++ r.endpoint
        if acc.1.contains key then acc
        else
          (key :: acc.1,
           acc.2 ++ [{
             id := "endpoint-" ++ r.apiName ++ "-" ++ sanitizeEndpoint r.endpoint
             title := r.method ++ " " ++ r.endpoint ++ " - " ++ r.apiName ++ " API"
             url := (match mapGet store r.apiName with
                     | some c => c.baseUrl
                     | Option.none => "unknown") ++ r.endpoint }])
      else acc)
    (([] : List String), ([] : List SearchResult))).2

/-- Stable insertion of a result into a list already sorted by
descending title length: a new element goes after every element of
equal or greater title length. -/
def insertDesc (x : SearchResult) : List SearchResult → List SearchResult
  | [] => [x]
  | y :: ys =>
    if y.title.length < x.title.length then x :: y :: ys
    else y :: insertDesc x ys

/-- The V8 `sort((a, b) => b.title.length - a.title.length)`: a stable
sort by descending title length (`Array.prototype.sort` is stable). -/
def sortByTitleLengthDesc (l : List SearchResult) : List SearchResult :=
  l.foldl (fun acc x => insertDesc x acc) []

/-- The `search` tool: configuration results then endpoint results,
stable-sorted by descending title length, capped at 10. -/
def search (store : Store) (history : List RequestHistory) (query : String) :
    List SearchResult :=
  let ql := strToLower query
  let results := searchApiResults store history ql ++ searchEndpointResults store history ql
  (sortByTitleLengthDesc results).take 10

/-- JS `Math.round(num / den)` for non-negative operands: floor of
`num/den + 1/2`. -/
def jsRoundDiv (num den : Nat) : Nat := (2 * num + den) / (2 * den)

/-- Derived fields of an `api-` document (`fetch`). -/
structure ApiDocData where
  requestCount : Nat
  successfulRequests : Nat
  successRate : Nat
  averageResponseTime : Nat
  endpoints : List RequestHistory
deriving Repr, DecidableEq

/-- Derived fields of an `endpoint-` document (`fetch`). -/
structure EndpointDocData where
  endpoint : String
  methods : List String
  requestCount : Nat
  successfulRequests : Nat
  successRate : Nat
  averageResponseTime : Nat
  recent : List RequestHistory
deriving Repr, DecidableEq

/-- Payload of a fetched document.  The source renders these fields
into a text blob; the rendering is presentation and is not modelled. -/
inductive DocumentBody where
  | apiDoc (data : ApiDocData)
  | endpointDoc (data : EndpointDocData)
deriving Repr, DecidableEq

/-- A fetched document. -/
structure Document where
  id : String
  title : String
  url : String
  body : DocumentBody
deriving Repr, DecidableEq

/-- JS `String.prototype.split('-')` on the character list. -/
def splitOnChar (c : Char) : List Char → List (List Char)
  | [] => [[]]
  | x :: xs =>
    let r := splitOnChar c xs
    if x = c then [] :: r
    else
      match r with
      | [] => [[x]]
      | y :: ys => (x :: y) :: ys

/-- JS `[...new Set(xs)]`: deduplicate keeping first occurrences. -/
def dedupFirstAux (seen : List String) : List String → List String
  | [] => []
  | x :: xs =>
    if seen.contains x then dedupFirstAux seen xs
    else x :: dedupFirstAux (x :: seen) xs

/-- JS `[...new Set(xs)]` (see `dedupFirstAux`). -/
def dedupFirst (l : List String) : List String := dedupFirstAux [] l

/-- Sum of response times (`reduce((sum, r) => sum + r.responseTime, 0)`). -/
def sumResponseTimes (l : List RequestHistory) : Nat :=
  l.foldl (fun s r => s + r.responseTime) 0

/-- The `fetch` tool.  `none` models every path that ends in the error
document (an explicit `throw` or falling through to
`Document with ID not found`): the caller observes a not-found result
either way.  For an `api-` id the name is the id minus the `api-`
prefix (`id.replace('api-', '')` on a string that starts with it); for
an `endpoint-` id the remainder is split on `-`, the head is the API
name, and the tail is re-joined and its `_` turned back into `/`. -/
def fetchDoc (store : Store) (history : List RequestHistory) (id : String) :
    Option Document :=
  if strStartsWith id "api-" then
    let apiName := String.mk (id.data.drop 4)
    match mapGet store apiName with
    | Option.none => Option.none
    | some config =>
      let stats := history.filter fun r => r.apiName == apiName
      let succ := (stats.filter fun r => r.success).length
      some {
        id := id
        title := apiName ++ " API Configuration"
        url := config.baseUrl ++ "/info"
        body := .apiDoc {
          requestCount := stats.length
          successfulRequests := succ
          successRate := if stats.length > 0 then jsRoundDiv (succ * 100) stats.length else 0
          averageResponseTime :=
            if stats.length > 0 then jsRoundDiv (sumResponseTimes stats) stats.length else 0
          endpoints := stats } }
  else if strStartsWith id "endpoint-" then
    let parts := splitOnChar '-' (id.data.drop 9)
    let apiName := String.mk (parts.headD [])
    if apiName.isEmpty then Option.none
    else
      match mapGet store apiName with
      | Option.none => Option.none
      | some config =>
        let endpointPart :=
          String.mk ((List.intercalate ['-'] (parts.drop 1)).map
            fun c => if c = '_' then '/' else c)
        let endpointHistory := history.filter fun r =>
          r.apiName == apiName && sanitizeEndpoint r.endpoint == endpointPart
        match endpointHistory.head? with
        | Option.none => Option.none
        | some firstRequest =>
          let endpoint := firstRequest.endpoint
          let succ := (endpointHistory.filter fun r => r.success).length
          some {
            id := id
            title := endpoint ++ " - " ++ apiName ++ " API Endpoint"
            url := config.baseUrl ++ endpoint
            body := .endpointDoc {
              endpoint := endpoint
              methods := dedupFirst (endpointHistory.map fun r => r.method)
              requestCount := endpointHistory.length
              successfulRequests := succ
              successRate := jsRoundDiv (succ * 100) endpointHistory.length
              averageResponseTime :=
                jsRoundDiv (sumResponseTimes endpointHistory) endpointHistory.length
              recent := endpointHistory.drop (endpointHistory.length - 5) } }
  else Option.none

/-! Specification-side definitions for the header-layering claim: the
spec describes `BuildHeaders` as a base layer, then default headers,
then per-call overrides (later layers win on key collision), then the
auth injection.  These definitions follow the spec's words and are
compared with the source-side `buildHeaders`. -/

/-- Value a JS object built from `m`'s entries in order holds at key
`k` (the last assignment wins). -/
def lookupLast (m : HeaderMap) (k : String) : Option String :=
  (m.reverse.find? fun p => p.1 == k).map Prod.snd

/-- Spec-side lookup through the three non-auth layers: per-call
overrides, else the configuration's default headers, else the base
`Content-Type` entry. -/
def layeredLookup (config : ApiConfig) (customHeaders : Option HeaderMap) (k : String) :
    Option String :=
  (lookupLast (customHeaders.getD []) k).or
    ((lookupLast (config.headers.getD []) k).or
      (lookupLast [("Content-Type", "application/json")] k))

/-- The header/value pair the auth switch of `buildHeaders` assigns
(`none` when it assigns nothing): `Authorization: Bearer <token>` for
bearer, `<headerName>: <apiKey>` for api-key, `Authorization: Basic
<base64(username:password)>` for basic. -/
def authInjection : Option Auth → Option (String × String)
  | Option.none => Option.none
  | some a =>
    if a.type = AuthType.none then Option.none
    else
      match a.credentials with
      | Option.none => Option.none
      | some c =>
        match a.type with
        | AuthType.bearer =>
          if truthy c.token then some ("Authorization", "Bearer " ++ c.token.getD "")
          else Option.none
        | AuthType.apiKey =>
          if truthy c.apiKey && truthy c.headerName then
            some (c.headerName.getD "", c.apiKey.getD "")
          else Option.none
        | AuthType.basic =>
          if truthy c.username && truthy c.password then
            some ("Authorization",
              "Basic " ++ base64 (c.username.getD "" ++ ":" ++ c.password.getD ""))
          else Option.none
        | AuthType.none => Option.none

/-- The history record `make_request` step 7 builds for a completed
response: `success = response.ok`, i.e. status in `[200, 299]`. -/
def completionRecord (apiName endpoint method : String) (st e : Nat) (completedAt : String) :
    RequestHistory where
  timestamp := completedAt
  apiName := apiName
  method := method
  endpoint := endpoint
  status := st
  responseTime := e
  success := 200 ≤ st && st ≤ 299

/-! Concrete instances used by counterexamples and witnesses.  For the
environment, `urlParses := fun _ => true` reflects that Node's
`new URL` accepts every concrete URL string appearing below (including
`"http://example.com//"`, which parses fine with an empty last path
segment). -/

/-- Concrete host environment for the concrete runs below. -/
def env0 : Env := { now := "2024-01-01T00:00:00.000Z", urlParses := fun _ => true }

/-- A bearer-auth `save_api` call with secret token `"tok"`. -/
def bearerArgs : SaveArgs := {
  name := "gh", baseUrl := "https://api.github.com",
  auth := some { type := .bearer, credentials := some { token := some "tok" } } }

/-- What the store actually holds after `saveApi env0 [] bearerArgs`:
the token has been overwritten by the redaction marker. -/
def ghStored : ApiConfig := {
  name := "gh", baseUrl := "https://api.github.com",
  auth := some { type := .bearer, credentials := some { token := some "[REDACTED]" } },
  timeout := some 30000, createdAt := "2024-01-01T00:00:00.000Z" }

/-- A stored configuration named `jp` with `auth.type = none`. -/
def jpCfg : ApiConfig := {
  name := "jp", baseUrl := "https://jsonplaceholder.typicode.com",
  auth := some { type := .none }, timeout := some 30000,
  createdAt := "2024-01-01T00:00:00.000Z" }

/-- One executed `GET /posts/1` call against `jp`. -/
def jpRec : RequestHistory := {
  timestamp := "2024-01-01T00:01:00.000Z", apiName := "jp", method := "GET",
  endpoint := "/posts/1", status := 200, responseTime := 120, success := true }

/-- A second, distinct history record (used as the newest insertion in
the ledger witness). -/
def ghRec : RequestHistory := {
  timestamp := "2024-01-01T00:02:00.000Z", apiName := "gh", method := "POST",
  endpoint := "/gists", status := 201, responseTime := 250, success := true }

/-- A `save_api` call whose `baseUrl` ends in two slashes; Node's
`new URL("http://example.com//")` succeeds, so `validateUrl` accepts it. -/
def slashArgs : SaveArgs := { name := "ex", baseUrl := "http://example.com//" }

/-- The configuration stored for `slashArgs`: only one trailing slash
was stripped. -/
def exStored : ApiConfig := {
  name := "ex", baseUrl := "http://example.com/",
  timeout := some 30000, createdAt := "2024-01-01T00:00:00.000Z" }

/-- A `save_api` call whose `baseUrl` ends in a single slash. -/
def aArgs : SaveArgs := { name := "a", baseUrl := "https://a.com/" }

/-- The configuration stored for `aArgs`. -/
def aStored : ApiConfig := {
  name := "a", baseUrl := "https://a.com",
  timeout := some 30000, createdAt := "2024-01-01T00:00:00.000Z" }

/-- Bearer auth with *no credentials object at all*: the validation
switch is skipped entirely. -/
def noCredArgs : SaveArgs := {
  name := "gh", baseUrl := "https://api.github.com",
  auth := some { type := .bearer } }

/-- The configuration `saveApi` stores for `noCredArgs`. -/
def noCredStored : ApiConfig := {
  name := "gh", baseUrl := "https://api.github.com",
  auth := some { type := .bearer }, timeout := some 30000,
  createdAt := "2024-01-01T00:00:00.000Z" }

/-- Bearer auth with a credentials object that lacks the token. -/
def emptyCredArgs : SaveArgs := {
  name := "gh", baseUrl := "https://api.github.com",
  auth := some { type := .bearer, credentials := some {} } }

/-- A bearer configuration whose default headers and per-call headers
both try to set `Authorization`. -/
def bearerCfg : ApiConfig := {
  name := "b", baseUrl := "https://b.example",
  auth := some { type := .bearer, credentials := some { token := some "tok" } },
  headers := some [("Authorization", "default"), ("Accept", "text/plain")],
  createdAt := "2024-01-01T00:00:00.000Z" }

/-! Helper lemmas. -/

/-- Rebuilding a string from its character list is the identity. -/
theorem strMk_data (s : String) : String.mk s.data = s := by
  cases s
  rfl

/-- Every string contains the empty string (JS `includes('')`). -/
theorem strIncludes_empty (h : String) : strIncludes h "" = true := by
  unfold strIncludes
  have hn : ("" : String).data = [] := rfl
  rw [hn]
  cases hd : h.data with
  | nil => rfl
  | cons a l => simp [List.isPrefixOf]

/-- The ledger append always puts the new record last. -/
theorem getLast?_addRequestToHistory (h : List RequestHistory) (r : RequestHistory) :
    (addRequestToHistory h r).getLast? = some r := by
  unfold addRequestToHistory
  by_cases hc : (h ++ [r]).length > 100
  · rw [if_pos hc]
    cases h with
    | nil => simp at hc
    | cons x t => simp [List.getLast?_concat]
  · rw [if_neg hc]
    simp [List.getLast?_concat]

/-- Redacting credentials does not change the `baseUrl`. -/
theorem sanitizeConfig_baseUrl (cfg : ApiConfig) :
    (sanitizeConfig cfg).baseUrl = cfg.baseUrl := by
  unfold sanitizeConfig
  split
  · split
    · rfl
    · rfl
  · rfl

/-! Claim theorems. -/

/-- C5: the Ledger is a bounded FIFO buffer of capacity 100.  From a
state within capacity, an insertion stays within capacity and the new
record is last; from a full state, the oldest record is dropped and
all the others keep their order (`h.tail ++ [r]`). -/
theorem ledger_bounded_fifo (h : List RequestHistory) (r : RequestHistory)
    (hcap : h.length ≤ 100) :
    (addRequestToHistory h r).length ≤ 100 ∧
    (addRequestToHistory h r).getLast? = some r ∧
    (h.length = 100 → addRequestToHistory h r = h.tail ++ [r]) := by
  refine ⟨?_, getLast?_addRequestToHistory h r, ?_⟩
  · unfold addRequestToHistory
    by_cases hc : (h ++ [r]).length > 100
    · rw [if_pos hc]
      rw [List.length_tail]
      simp only [List.length_append, List.length_singleton] at hc ⊢
      omega
    · rw [if_neg hc]
      simp only [List.length_append, List.length_singleton] at hc ⊢
      omega
  · intro h100
    unfold addRequestToHistory
    have hc : (h ++ [r]).length > 100 := by
      simp [List.length_append, h100]
    rw [if_pos hc]
    cases h with
    | nil => simp at h100
    | cons x t => simp

/-- C5 witness: a full ledger of 100 records evicts the oldest and
keeps the newest on the 101st insertion. -/
theorem ledger_bounded_fifo_witness :
    (List.replicate 100 jpRec).length ≤ 100 ∧
    (addRequestToHistory (List.replicate 100 jpRec) ghRec).length ≤ 100 ∧
    (addRequestToHistory (List.replicate 100 jpRec) ghRec).getLast? = some ghRec ∧
    addRequestToHistory (List.replicate 100 jpRec) ghRec
      = (List.replicate 100 jpRec).tail ++ [ghRec] := by
  have h := ledger_bounded_fifo (List.replicate 100 jpRec) ghRec (by simp)
  exact ⟨by simp, h.1, h.2.1, h.2.2 (by simp)⟩

/-- C9: fetching `api-<name>` fails (error document) whenever no
configuration named `<name>` exists, whatever the history contains. -/
theorem fetch_api_missing_config (store : Store) (history : List RequestHistory)
    (n : String) (h : mapGet store n = Option.none) :
    fetchDoc store history ("api-" ++ n) = Option.none := by
  have hdata : ("api-" ++ n).data = 'a' :: 'p' :: 'i' :: '-' :: n.data := by
    rw [String.data_append]
    rfl
  have h1 : strStartsWith ("api-" ++ n) "api-" = true := by
    unfold strStartsWith
    rw [hdata]
    simp [List.isPrefixOf]
  have h2 : String.mk (("api-" ++ n).data.drop 4) = n := by
    rw [hdata]
    exact strMk_data n
  unfold fetchDoc
  rw [h1]
  simp only [if_true]
  rw [h2, h]

/-- C9 witness: after the `jp` configuration is gone (empty store),
`fetch("api-jp")` fails even though a `jp` history record remains. -/
theorem fetch_api_missing_config_witness :
    mapGet ([] : Store) "jp" = Option.none ∧
    fetchDoc [] [jpRec] ("api-" ++ "jp") = Option.none :=
  ⟨rfl, fetch_api_missing_config [] [jpRec] "jp" rfl⟩

/-- C4 counterexample: a transport failure leaves the store and the
ledger untouched, but its result text is `"❌ Request failed: " +
error.message` — the elapsed time (123 ms here) appears nowhere in it,
so the outcome does not carry the elapsed time as claimed. -/
theorem transport_failure_lacks_elapsed :
    makeRequest [("jp", jpCfg)] [] "jp" "/posts/1" "GET"
        (.transportError "getaddrinfo ENOTFOUND" 123)
      = ([("jp", jpCfg)], [], .failed "getaddrinfo ENOTFOUND") ∧
    renderRequestResult (.failed "getaddrinfo ENOTFOUND")
      = some "❌ Request failed: getaddrinfo ENOTFOUND" ∧
    strIncludes "❌ Request failed: getaddrinfo ENOTFOUND" "123" = false :=
  ⟨rfl, rfl, rfl⟩

/-- C4 amended: on a timeout or a transport failure, `make_request`
leaves the Ledger and the Configuration Store (hence `lastUsedAt`)
exactly as they were; the timeout outcome carries the elapsed time in
its result text, while the transport-failure outcome carries only the
error description. -/
theorem request_timeout_transport_no_mutation (store : Store)
    (history : List RequestHistory) (apiName endpoint method : String)
    (cfg : ApiConfig) (hcfg : mapGet store apiName = some cfg) :
    (∀ e, makeRequest store history apiName endpoint method (.timeout e)
        = (store, history, .timedOut e)) ∧
    (∀ e, renderRequestResult (.timedOut e)
        = some ("⏱️ Request timeout after " ++ toString e ++ "ms")) ∧
    (∀ msg e, makeRequest store history apiName endpoint method (.transportError msg e)
        = (store, history, .failed msg)) ∧
    (∀ msg, renderRequestResult (.failed msg) = some ("❌ Request failed: " ++ msg)) := by
  refine ⟨fun e => ?_, fun e => rfl, fun msg e => ?_, fun msg => rfl⟩
  · unfold makeRequest
    rw [hcfg]
  · unfold makeRequest
    rw [hcfg]

/-- C4 amended witness: concrete timeout and transport failure against
the stored `jp` configuration. -/
theorem request_timeout_transport_no_mutation_witness :
    makeRequest [("jp", jpCfg)] [jpRec] "jp" "/posts/1" "GET" (.timeout 30000)
      = ([("jp", jpCfg)], [jpRec], .timedOut 30000) ∧
    renderRequestResult (.timedOut 30000) = some "⏱️ Request timeout after 30000ms" ∧
    makeRequest [("jp", jpCfg)] [jpRec] "jp" "/posts/1" "GET"
        (.transportError "connect ECONNREFUSED" 7)
      = ([("jp", jpCfg)], [jpRec], .failed "connect ECONNREFUSED") := by
  have h := request_timeout_transport_no_mutation [("jp", jpCfg)] [jpRec]
    "jp" "/posts/1" "GET" jpCfg rfl
  exact ⟨h.1 30000, h.2.1 30000, h.2.2.1 "connect ECONNREFUSED" 7⟩

/-- C6 counterexample: an HTTP response completes before the deadline
with status 200 but declares `application/json` and its body is not
parseable JSON; `response.json()` throws, the catch path runs, and no
RequestRecord is appended and `lastUsed` stays unchanged — against the
claim that every completed response appends exactly one record. -/
theorem completed_response_parse_throw_records_nothing :
    makeRequest [("jp", jpCfg)] [] "jp" "/x" "GET"
        (.completed 200 "OK" "application/json" "not json" Option.none 50
          "2024-01-01T00:03:00.000Z")
      = ([("jp", jpCfg)], [], .failed "Unexpected token in JSON") ∧
    (200 ≤ 200 && 200 ≤ 299) = true :=
  ⟨rfl, rfl⟩

/-- C6 amended: for every `make_request` call that completes with an
HTTP response before the deadline *and whose body classification
succeeds* (it can only fail when the response declares a JSON content
type and its body fails to parse), exactly one RequestRecord is
appended — it becomes the last ledger entry, with `success` true iff
the status is in `[200, 299]` — and the configuration's `lastUsed` is
set to the completion timestamp. -/
theorem request_completed_records (store : Store) (history : List RequestHistory)
    (apiName endpoint method : String) (cfg : ApiConfig) (st : Nat)
    (stT ct raw : String) (jp : Option String) (e : Nat) (completedAt : String)
    (body : BodyValue) (hcfg : mapGet store apiName = some cfg)
    (hparse : parseResponse ct raw jp = .ok body) :
    makeRequest store history apiName endpoint method
        (.completed st stT ct raw jp e completedAt)
      = (mapPut store apiName { cfg with lastUsed := some completedAt },
         addRequestToHistory history (completionRecord apiName endpoint method st e completedAt),
         .completed st stT body e) ∧
    (addRequestToHistory history (completionRecord apiName endpoint method st e completedAt)).getLast?
      = some (completionRecord apiName endpoint method st e completedAt) ∧
    ((completionRecord apiName endpoint method st e completedAt).success = true
      ↔ 200 ≤ st ∧ st ≤ 299) := by
  refine ⟨?_, getLast?_addRequestToHistory _ _, by simp [completionRecord]⟩
  unfold makeRequest
  rw [hcfg]
  dsimp only
  rw [hparse]
  rfl

/-- C6 amended witness: a completed `text/plain` 404 response appends
exactly one record with `success = false` and updates `lastUsed`. -/
theorem request_completed_records_witness :
    makeRequest [("jp", jpCfg)] [] "jp" "/posts/1" "GET"
        (.completed 404 "Not Found" "text/plain" "gone" Option.none 80
          "2024-01-01T00:03:00.000Z")
      = (mapPut [("jp", jpCfg)] "jp" { jpCfg with lastUsed := some "2024-01-01T00:03:00.000Z" },
         addRequestToHistory []
           (completionRecord "jp" "/posts/1" "GET" 404 80 "2024-01-01T00:03:00.000Z"),
         .completed 404 "Not Found" (.text "gone") 80) ∧
    (addRequestToHistory []
        (completionRecord "jp" "/posts/1" "GET" 404 80 "2024-01-01T00:03:00.000Z")).getLast?
      = some (completionRecord "jp" "/posts/1" "GET" 404 80 "2024-01-01T00:03:00.000Z") ∧
    ((completionRecord "jp" "/posts/1" "GET" 404 80 "2024-01-01T00:03:00.000Z").success = true
      ↔ 200 ≤ 404 ∧ 404 ≤ 299) := by
  exact request_completed_records [("jp", jpCfg)] [] "jp" "/posts/1" "GET" jpCfg
    404 "Not Found" "text/plain" "gone" Option.none 80 "2024-01-01T00:03:00.000Z"
    (.text "gone") rfl rfl

/-- C3 counterexample: a `save_api` call with `auth.type = 'bearer'`
and *no credentials object* (hence no token) succeeds and stores the
configuration — the validation switch runs only when a credentials
object is present, so the claimed IncompleteAuth failure does not
happen. -/
theorem save_bearer_without_credentials_succeeds :
    noCredArgs.auth = some { type := .bearer, credentials := Option.none } ∧
    saveApi env0 [] noCredArgs = .ok ([("gh", noCredStored)], noCredStored) ∧
    mapGet [("gh", noCredStored)] "gh" = some noCredStored :=
  ⟨rfl, rfl, rfl⟩

/-- C3 amended: when the auth variant is not `none` and a credentials
object *is supplied* but its required fields are missing (bearer
without a truthy token; api-key missing apiKey or headerName; basic
missing username or password), `save_api` fails with IncompleteAuth
and stores nothing; calls that supply no credentials object at all are
not validated, and the `none` variant requires nothing. -/
theorem save_incomplete_auth_rejected (env : Env) (store : Store) (args : SaveArgs)
    (a : Auth) (c : Credentials)
    (hauth : args.auth = some a) (hcred : a.credentials = some c)
    (hname : mapHas store args.name = false)
    (hurl : validateUrl env args.baseUrl = true)
    (hmiss : (a.type = AuthType.bearer ∧ truthy c.token = false) ∨
      (a.type = AuthType.apiKey ∧ (truthy c.apiKey = false ∨ truthy c.headerName = false)) ∨
      (a.type = AuthType.basic ∧ (truthy c.username = false ∨ truthy c.password = false))) :
    saveApi env store args = .error .incompleteAuth := by
  have hvalid : saveAuthValid args.auth = false := by
    rw [hauth]
    obtain ⟨ty, cr⟩ := a
    dsimp only at hcred hmiss
    subst hcred
    unfold saveAuthValid
    rcases hmiss with ⟨ht, hm⟩ | ⟨ht, hm⟩ | ⟨ht, hm⟩ <;> subst ht
    · simpa using hm
    · rcases hm with hm | hm <;> simp [hm]
    · rcases hm with hm | hm <;> simp [hm]
  unfold saveApi
  rw [hname, hurl, hvalid]
  rfl

/-- C3 amended witness: bearer auth with an empty credentials object
is rejected with IncompleteAuth. -/
theorem save_incomplete_auth_rejected_witness :
    emptyCredArgs.auth = some { type := .bearer, credentials := some {} } ∧
    saveApi env0 [] emptyCredArgs = .error .incompleteAuth := by
  refine ⟨rfl, ?_⟩
  exact save_incomplete_auth_rejected env0 [] emptyCredArgs
    { type := .bearer, credentials := some {} } {} rfl rfl rfl rfl
    (Or.inl ⟨rfl, rfl⟩)

/-- C8 counterexample: `"http://example.com//"` is accepted (Node's
`new URL` parses it and it starts with `http://`), yet the stored
`baseUrl` is `"http://example.com/"`, which still ends in `'/'`: the
regex `/\/$/` strips only one slash. -/
theorem save_keeps_second_trailing_slash :
    saveApi env0 [] slashArgs = .ok ([("ex", exStored)], exStored) ∧
    exStored.baseUrl = "http://example.com/" ∧
    "http://example.com/".data.getLast? = some '/' :=
  ⟨rfl, rfl, rfl⟩

/-- Helper for C8: dropping one trailing slash leaves no trailing
slash unless the input ended in two. -/
theorem stripTrailingSlash_no_double (l : List Char)
    (h : ¬ (l.getLast? = some '/' ∧ l.dropLast.getLast? = some '/')) :
    (dropTrailingSlash l).getLast? ≠ some '/' := by
  unfold dropTrailingSlash
  by_cases hl : l.getLast? = some '/'
  · rw [if_pos hl]
    intro hc
    exact h ⟨hl, hc⟩
  · rw [if_neg hl]
    exact hl

/-- C8 amended: every accepted `save_api` call stores `baseUrl` with
*exactly one* trailing slash stripped (the rendered and stored value is
`stripTrailingSlash baseUrl`, appended under the call's name); the
stored value has no trailing slash whenever the input did not end in
two slashes — an input ending in `"//"` keeps its penultimate slash. -/
theorem save_strips_one_trailing_slash (env : Env) (store : Store) (args : SaveArgs)
    (store' : Store) (rendered : ApiConfig)
    (hok : saveApi env store args = .ok (store', rendered)) :
    rendered.baseUrl = stripTrailingSlash args.baseUrl ∧
    store' = store ++ [(args.name, rendered)] ∧
    (¬ (args.baseUrl.data.getLast? = some '/' ∧
          args.baseUrl.data.dropLast.getLast? = some '/') →
      (stripTrailingSlash args.baseUrl).data.getLast? ≠ some '/') := by
  unfold saveApi at hok
  split at hok
  · cases hok
  · split at hok
    · cases hok
    · split at hok
      · cases hok
      · rw [Except.ok.injEq, Prod.mk.injEq] at hok
        obtain ⟨hs, hr⟩ := hok
        refine ⟨?_, ?_, ?_⟩
        · rw [← hr, sanitizeConfig_baseUrl]
        · rw [← hs, ← hr]
        · intro hnd
          exact stripTrailingSlash_no_double args.baseUrl.data hnd

/-- C8 amended witness: a `baseUrl` ending in a single slash is stored
without it. -/
theorem save_strips_one_trailing_slash_witness :
    aStored.baseUrl = stripTrailingSlash "https://a.com/" ∧
    [("a", aStored)] = ([] : Store) ++ [("a", aStored)] ∧
    (stripTrailingSlash "https://a.com/").data.getLast? ≠ some '/' := by
  have h := save_strips_one_trailing_slash env0 [] aArgs [("a", aStored)] aStored rfl
  exact ⟨h.1, h.2.1, h.2.2 (by decide)⟩

/-- C1 (code bug): after a successful `save_api` of a bearer
configuration with token `"tok"`, the *stored* configuration's token is
the redaction marker, not the original secret: `sanitizeConfig`'s
shallow copy shares the `auth` object with the stored configuration, so
rendering the save response overwrites the stored credentials. -/
theorem save_overwrites_stored_secret :
    bearerArgs.auth = some { type := .bearer, credentials := some { token := some "tok" } } ∧
    saveApi env0 [] bearerArgs = .ok ([("gh", ghStored)], ghStored) ∧
    mapGet [("gh", ghStored)] "gh" = some ghStored ∧
    ghStored.auth = some { type := .bearer, credentials := some { token := some REDACTED } } ∧
    "tok" ≠ REDACTED :=
  ⟨rfl, rfl, rfl, rfl, by decide⟩

/-- C2 (code bug): `search("posts")` over one `GET /posts/1` record for
the existing `jp` configuration emits the endpoint result with id
`endpoint-jp-_posts_1`, but `fetch` of that very id fails (error
document): fetch turns the id's underscores back into `/` and compares
that against the re-sanitized endpoint, which still has underscores, so
no history record can ever match when the endpoint contains a
non-alphanumeric character. -/
theorem search_fetch_endpoint_roundtrip_broken :
    (search [("jp", jpCfg)] [jpRec] "posts").map (fun r => r.id)
      = ["api-jp", "endpoint-jp-_posts_1"] ∧
    mapGet [("jp", jpCfg)] "jp" = some jpCfg ∧
    strIncludes (strToLower jpRec.endpoint) (strToLower "posts") = true ∧
    fetchDoc [("jp", jpCfg)] [jpRec] "endpoint-jp-_posts_1" = Option.none :=
  ⟨rfl, rfl, rfl, rfl⟩

/-- Reading a cons cell checks the head key first. -/
theorem recGet_cons (p : String × String) (t : HeaderMap) (k : String) :
    recGet (p :: t) k = if p.1 == k then some p.2 else recGet t k := by
  by_cases h : (p.1 == k) = true <;> simp [recGet, List.find?, h]

/-- Overwriting the entries keyed `k'` leaves reads of other keys
unchanged. -/
theorem recGet_replace_ne (t : HeaderMap) (k' v' k : String) (hk : k ≠ k') :
    recGet (t.map fun p => if p.1 == k' then (k', v') else p) k = recGet t k := by
  induction t with
  | nil => rfl
  | cons p t ih =>
    rw [List.map_cons, recGet_cons, recGet_cons]
    by_cases hp : p.1 = k'
    · have h1 : (if p.1 == k' then (k', v') else p) = (k', v') := by simp [hp]
      have h2 : (k' == k) = false := by simp [Ne.symm hk]
      have h3 : (p.1 == k) = false := by simp [hp, Ne.symm hk]
      rw [h1]
      simp only [h2, h3, if_false, Bool.false_eq_true]
      exact ih
    · have h1 : (if p.1 == k' then (k', v') else p) = p := by simp [hp]
      rw [h1]
      by_cases hpk : (p.1 == k) = true
      · simp only [hpk, if_true]
      · simp only [hpk, if_false, Bool.false_eq_true]
        exact ih

/-- When some entry is keyed `k'`, overwriting them all with `(k', v')`
makes the read of `k'` return `v'`. -/
theorem recGet_replace_eq (t : HeaderMap) (k' v' : String)
    (hany : (t.any fun q => q.1 == k') = true) :
    recGet (t.map fun p => if p.1 == k' then (k', v') else p) k' = some v' := by
  induction t with
  | nil => simp at hany
  | cons p t ih =>
    rw [List.map_cons, recGet_cons]
    by_cases hp : p.1 = k'
    · have h1 : (if p.1 == k' then (k', v') else p) = (k', v') := by simp [hp]
      rw [h1]
      simp
    · have h1 : (if p.1 == k' then (k', v') else p) = p := by simp [hp]
      have hpne : (p.1 == k') = false := by simp [hp]
      rw [h1]
      have hany' : (t.any fun q => q.1 == k') = true := by
        rw [List.any_cons, hpne] at hany
        simpa using hany
      simp only [hpne, if_false, Bool.false_eq_true]
      exact ih hany'

/-- JS record assignment then read: the new value wins at its key and
nothing else changes. -/
theorem recGet_recSet (m : HeaderMap) (k' v' k : String) :
    recGet (recSet m k' v') k = if k = k' then some v' else recGet m k := by
  unfold recSet
  by_cases hany : (m.any fun p => p.1 == k') = true
  · rw [if_pos hany]
    by_cases hk : k = k'
    · subst hk
      rw [if_pos rfl]
      exact recGet_replace_eq m k v' hany
    · rw [if_neg hk]
      exact recGet_replace_ne m k' v' k hk
  · rw [if_neg hany]
    have happ : recGet (m ++ [(k', v')]) k = (recGet m k).or (recGet [(k', v')] k) := by
      unfold recGet
      rw [List.find?_append]
      cases hf : m.find? fun p => p.1 == k <;> simp [hf, Option.or]
    rw [happ]
    by_cases hk : k = k'
    · subst hk
      have hnone : recGet m k = Option.none := by
        unfold recGet
        rw [List.find?_eq_none.mpr]
        · rfl
        · intro x hx hcontra
          exact hany (List.any_eq_true.mpr ⟨x, hx, hcontra⟩)
      rw [hnone, if_pos rfl]
      simp [recGet, Option.or]
    · rw [if_neg hk]
      have h2 : recGet [(k', v')] k = Option.none := by
        have : (k' == k) = false := by simp [Ne.symm hk]
        simp [recGet, List.find?, this]
      rw [h2]
      cases hf : recGet m k <;> simp [Option.or]

/-- Folding JS assignments over an object: the last assignment of `k`
among `entries` wins, else the original object's value survives. -/
theorem recGet_recSetAll (entries : HeaderMap) (m : HeaderMap) (k : String) :
    recGet (recSetAll m entries) k = (lookupLast entries k).or (recGet m k) := by
  induction entries generalizing m with
  | nil => simp [recSetAll, lookupLast, Option.or]
  | cons kv tl ih =>
    have hstep : recSetAll m (kv :: tl) = recSetAll (recSet m kv.1 kv.2) tl := rfl
    rw [hstep, ih, recGet_recSet]
    unfold lookupLast
    rw [List.reverse_cons, List.find?_append]
    cases hf : tl.reverse.find? fun p => p.1 == k with
    | some v => simp [hf, Option.or]
    | none =>
      by_cases hk : k = kv.1
      · have : (kv.1 == k) = true := by simp [hk]
        simp [hf, hk, List.find?, this, Option.or]
      · have : (kv.1 == k) = false := by simp [Ne.symm hk]
        simp [hf, hk, List.find?, this, Option.or]

/-- The three non-auth layers of `buildHeaders` read exactly as the
spec's layered lookup. -/
theorem recGet_headers_layer (config : ApiConfig) (customHeaders : Option HeaderMap)
    (k : String) :
    recGet (recSetAll (recSetAll [("Content-Type", "application/json")]
        (config.headers.getD [])) (customHeaders.getD [])) k
      = layeredLookup config customHeaders k := by
  rw [recGet_recSetAll, recGet_recSetAll]
  rfl

/-- Reading any key of `buildHeaders`' result: the auth-injected header
wins at its own key; every other key reads through the three layers
(overrides, then defaults, then the base `Content-Type`). -/
theorem buildHeaders_lookup (config : ApiConfig) (customHeaders : Option HeaderMap)
    (k : String) :
    recGet (buildHeaders config customHeaders) k
      = match authInjection config.auth with
        | some kv => if k = kv.1 then some kv.2 else layeredLookup config customHeaders k
        | Option.none => layeredLookup config customHeaders k := by
  unfold buildHeaders authInjection
  cases hA : config.auth with
  | none => exact recGet_headers_layer config customHeaders k
  | some a =>
    obtain ⟨ty, cr⟩ := a
    cases ty with
    | none => simpa using recGet_headers_layer config customHeaders k
    | bearer =>
      cases cr with
      | none => simpa using recGet_headers_layer config customHeaders k
      | some c =>
        by_cases htok : truthy c.token = true
        · simp only [htok]
          dsimp
          rw [recGet_recSet, recGet_headers_layer]
        · simp only [Bool.not_eq_true] at htok
          simp only [htok]
          dsimp
          rw [recGet_headers_layer]
    | apiKey =>
      cases cr with
      | none => simpa using recGet_headers_layer config customHeaders k
      | some c =>
        by_cases hck : (truthy c.apiKey && truthy c.headerName) = true
        · simp only [hck]
          dsimp
          rw [recGet_recSet, recGet_headers_layer]
        · simp only [Bool.not_eq_true] at hck
          simp only [hck]
          dsimp
          rw [recGet_headers_layer]
    | basic =>
      cases cr with
      | none => simpa using recGet_headers_layer config customHeaders k
      | some c =>
        by_cases hcb : (truthy c.username && truthy c.password) = true
        · simp only [hcb]
          dsimp
          rw [recGet_recSet, recGet_headers_layer]
        · simp only [Bool.not_eq_true] at hcb
          simp only [hcb]
          dsimp
          rw [recGet_headers_layer]

/-- C7: `buildHeaders` reads as base layer, then default headers, then
per-call overrides (later layers win), with the auth header(s)
injected last; consequently, for a non-none auth variant with complete
credentials the auth-derived header carries the auth-derived value in
the result, whatever the default or override headers set for that key. -/
theorem buildHeaders_layered_auth_wins (config : ApiConfig)
    (customHeaders : Option HeaderMap) :
    (∀ k, recGet (buildHeaders config customHeaders) k
        = match authInjection config.auth with
          | some kv => if k = kv.1 then some kv.2 else layeredLookup config customHeaders k
          | Option.none => layeredLookup config customHeaders k) ∧
    (∀ kv, authInjection config.auth = some kv →
      recGet (buildHeaders config customHeaders) kv.1 = some kv.2) := by
  refine ⟨fun k => buildHeaders_lookup config customHeaders k, fun kv hkv => ?_⟩
  rw [buildHeaders_lookup, hkv]
  simp

/-- C7 witness: a bearer configuration whose default headers and
per-call overrides both try to set `Authorization` still ends up with
`Authorization: Bearer tok`, while a non-colliding default header
survives the layering. -/
theorem buildHeaders_layered_auth_wins_witness :
    authInjection bearerCfg.auth = some ("Authorization", "Bearer tok") ∧
    recGet (buildHeaders bearerCfg (some [("Authorization", "override")])) "Authorization"
      = some "Bearer tok" ∧
    recGet (buildHeaders bearerCfg (some [("Authorization", "override")])) "Accept"
      = some "text/plain" := by
  refine ⟨rfl, ?_, rfl⟩
  exact (buildHeaders_layered_auth_wins bearerCfg (some [("Authorization", "override")])).2
    ("Authorization", "Bearer tok") rfl

/-- Stable insertion grows the list by one. -/
theorem insertDesc_length (x : SearchResult) (l : List SearchResult) :
    (insertDesc x l).length = l.length + 1 := by
  induction l with
  | nil => rfl
  | cons y ys ih =>
    unfold insertDesc
    by_cases h : y.title.length < x.title.length
    · rw [if_pos h]
      simp
    · rw [if_neg h]
      simp [ih]

/-- Folding stable insertions preserves the total length. -/
theorem sortDesc_foldl_length (l acc : List SearchResult) :
    (l.foldl (fun acc x => insertDesc x acc) acc).length = acc.length + l.length := by
  induction l generalizing acc with
  | nil => simp
  | cons x xs ih =>
    rw [List.foldl_cons, ih, insertDesc_length]
    simp only [List.length_cons]
    omega

/-- The title-length sort permutes, hence preserves length. -/
theorem sortByTitleLengthDesc_length (l : List SearchResult) :
    (sortByTitleLengthDesc l).length = l.length := by
  unfold sortByTitleLengthDesc
  rw [sortDesc_foldl_length]
  simp

/-- C10: with the empty query every stored configuration matches (the
empty string is a substring of every name, giving a positive score),
every stored configuration is emitted as an `api-` result before the
cap, and on a non-empty store the final capped result list is
non-empty. -/
theorem search_empty_query_matches_all (store : Store) (history : List RequestHistory)
    (hne : store ≠ []) :
    (∀ p ∈ store, 0 < (apiMatch history "" p.1 p.2).1) ∧
    (∀ p ∈ store, ∃ res ∈ searchApiResults store history "", res.id = "api-" ++ p.1) ∧
    search store history "" ≠ [] := by
  have hpos : ∀ p : String × ApiConfig, 0 < (apiMatch history "" p.1 p.2).1 := by
    intro p
    have hn : strIncludes (strToLower p.1) "" = true := strIncludes_empty _
    unfold apiMatch
    simp only [hn, if_true]
    omega
  have hmem : ∀ p ∈ store, ∃ res ∈ searchApiResults store history "",
      res.id = "api-" ++ p.1 := by
    intro p hp
    refine ⟨{ id := "api-" ++ p.1,
              title := apiResultTitle p.1 p.2 (apiMatch history "" p.1 p.2).2,
              url := p.2.baseUrl ++ "/info" }, ?_, rfl⟩
    apply List.mem_filterMap.mpr
    refine ⟨p, hp, ?_⟩
    dsimp only
    rw [if_pos (hpos p)]
  refine ⟨fun p _ => hpos p, hmem, ?_⟩
  obtain ⟨q, rest, rfl⟩ : ∃ q rest, store = q :: rest := by
    cases store with
    | nil => exact absurd rfl hne
    | cons q rest => exact ⟨q, rest, rfl⟩
  intro hempty
  unfold search at hempty
  rw [show strToLower "" = "" from rfl] at hempty
  rw [List.take_eq_nil_iff] at hempty
  rcases hempty with h10 | hsort
  · exact absurd h10 (by decide)
  · have hlen := congrArg List.length hsort
    rw [sortByTitleLengthDesc_length, List.length_append] at hlen
    have hA : searchApiResults (q :: rest) history ""
        = { id := "api-" ++ q.1,
            title := apiResultTitle q.1 q.2 (apiMatch history "" q.1 q.2).2,
            url := q.2.baseUrl ++ "/info" }
          :: (rest.filterMap fun p =>
              let m := apiMatch history "" p.1 p.2
              if m.1 > 0 then
                some { id := "api-" ++ p.1, title := apiResultTitle p.1 p.2 m.2,
                       url := p.2.baseUrl ++ "/info" }
              else Option.none) := by
      unfold searchApiResults
      rw [List.filterMap_cons]
      dsimp only
      rw [if_pos (hpos q)]
    rw [hA] at hlen
    simp at hlen

/-- C10 witness: a store holding only the `jp` configuration and an
empty history; the empty query scores `jp` positively, emits
`api-jp`, and the final result list is non-empty. -/
theorem search_empty_query_matches_all_witness :
    0 < (apiMatch [] "" "jp" jpCfg).1 ∧
    (∃ res ∈ searchApiResults [("jp", jpCfg)] [] "", res.id = "api-" ++ "jp") ∧
    search [("jp", jpCfg)] [] "" ≠ [] := by
  have h := search_empty_query_matches_all [("jp", jpCfg)] [] (by simp)
  exact ⟨h.1 ("jp", jpCfg) (by simp), h.2.1 ("jp", jpCfg) (by simp), h.2.2⟩

end ApiManager
